import Mathlib

/-!
# Exploding Kittens: the game state machine of open_spiel

A shallow embedding of `open_spiel/games/exploding_kittens.h` and
`open_spiel/games/exploding_kittens.cc`, followed by the properties of the
engine that are established for it.

Conventions of the embedding:

* C++ `int`, `Player` and `Action` values are `Int`; sizes are `Nat`.
* A `double` is taken as an exact rational; a quotient by zero, which is not a
  rational number, is `none`.
* `SPIEL_CHECK_*` and `SpielFatalError` abort the program: a function that can
  reach one returns `Except String`, the error carrying the failed check.
* The constant `kNumCards` and the bodies of the six phase handlers are not in
  the two source files: `kNumCards` is a parameter of the state, and the
  handlers are a parameter of the dispatch.
-/

namespace open_spiel
namespace exploding_kittens

/-! ## Constants (exploding_kittens.h, lines 36-56) -/

def kNumDecks : Int := 1
def kNumPlayers : Int := 2
def kNumDistinctCardTypes : Int := 9
def kNumSkipCards : Int := 5
def kNumSlap1xCards : Int := 3
def kNumSlap2xCards : Int := 1
def kNumSeeTheFutureCards : Int := 3
def kNumShuffleCards : Int := 2
def kNumDrawFromTheBottomCards : Int := 2
def kNumCatCards : Int := 3

/-- The deck size, term by term as the header writes it (lines 46-51):
`kNumSlap1xCards` occurs twice and `kNumSlap2xCards` does not occur. -/
def kNumCardsInDeck : Int :=
  kNumSkipCards + kNumSlap1xCards + kNumSlap1xCards
  + kNumSeeTheFutureCards + kNumShuffleCards
  + kNumDrawFromTheBottomCards + kNumCatCards
  + kNumPlayers
  + 1

def kHandSize : Int := 5

/-- Size of draw pile when play begins. -/
def kMaxStockSize : Int := kNumCardsInDeck - kNumPlayers * kHandSize

def kNumDistinctActions : Int := 5
def kObservationTensorSize : Int := 10

/-! ## Framework types and sentinels (open_spiel/spiel.h) -/

abbrev Player := Int
abbrev Action := Int

/-- Modelled from the spec: `kChancePlayerId` is declared in
`open_spiel/spiel.h`, which is not among the sources at hand. The spec calls
it the distinguished chance identifier, an integer sentinel that is neither
player index 0 or 1 nor the terminal identifier. -/
def kChancePlayerId : Player := -1

/-- Modelled from the spec: `kTerminalPlayerId` is declared in
`open_spiel/spiel.h`, which is not among the sources at hand. The spec calls
it the terminal identifier, an integer sentinel that is neither player index
0 or 1 nor the chance identifier. -/
def kTerminalPlayerId : Player := -4

/-! ## The state (exploding_kittens.h, lines 58-97) -/

/-- The phases of `ExplodingKittensState::Phase`, in declaration order. -/
inductive Phase where
  | kDeal
  | kPlayTurn
  | kGiveCard
  | kShuffleDrawPile
  | kMustDefuse
  | kInsertKittenRandom
  | kGameOver
  deriving DecidableEq, Repr

/-- The members of `ExplodingKittensState`.

`phase_`, `cur_player_` and `prev_player_` are declared in the header with the
default values repeated here.

Modelled from the spec: the declarations of `deck_`, `stock_size_` and
`num_players_` are missing from the header although the `.cc` file reads
them. Following the spec, `deck_` is the boolean vector over the `kNumCards`
card identities that marks the cards still in the stock, `stock_size_` is the
size of the stock, and `num_players_` is the number of players of the game the
state belongs to. `kNumCards` itself is declared in
`exploding_kittens_utils.h`, which is missing as well, so it is a parameter.
The constructor argument `deck` (the deck selector) is kept beside them. -/
structure ExplodingKittensState (kNumCards : Nat) where
  phase_ : Phase := Phase.kDeal
  cur_player_ : Player := kChancePlayerId
  prev_player_ : Player := kChancePlayerId
  deck : Int
  deck_ : Fin kNumCards → Bool
  stock_size_ : Nat
  num_players_ : Int

/-- The function `int Opponent(int player) const`. -/
def Opponent (player : Int) : Int := 1 - player

/-- The function `bool IsTerminal() const`. -/
def IsTerminal {kNumCards : Nat} (s : ExplodingKittensState kNumCards) : Bool :=
  decide (s.phase_ = Phase.kGameOver)

/-- The function `ExplodingKittensState::CurrentPlayer` (.cc lines 63-69). -/
def CurrentPlayer {kNumCards : Nat} (s : ExplodingKittensState kNumCards) : Player :=
  if IsTerminal s then
    kTerminalPlayerId
  else
    s.cur_player_

/-- Modelled from the spec: `State::IsChanceNode` is defined in
`open_spiel/spiel.h`, which is not among the sources at hand; the spec says
the chance-outcome query is for the states whose active actor is chance. -/
def IsChanceNode {kNumCards : Nat} (s : ExplodingKittensState kNumCards) : Bool :=
  decide (CurrentPlayer s = kChancePlayerId)

/-- The function `ExplodingKittensState::LegalActions` (.cc lines 90-92). -/
def LegalActions {kNumCards : Nat} (_s : ExplodingKittensState kNumCards) : List Action :=
  []

/-- The function `ExplodingKittensState::Returns` (.cc lines 111-118); the
vector `std::vector<double>(kNumPlayers, 0.0)` is `kNumPlayers` zeros. -/
def Returns {kNumCards : Nat} (s : ExplodingKittensState kNumCards) : List ℚ :=
  if !IsTerminal s then
    List.replicate kNumPlayers.toNat 0
  else
    let returns : List ℚ := List.replicate kNumPlayers.toNat 0
    -- If neither player knocked both players get 0.
    returns

/-! ## The game descriptor (exploding_kittens.h, lines 99-124) -/

/-- The members of `ExplodingKittensGame`: the deck selector. -/
structure ExplodingKittensGame where
  deck_ : Int
  deriving DecidableEq, Repr

/-- The constructor `ExplodingKittensGame::ExplodingKittensGame` (.cc lines
140-145), on the value `deck` of the parameter "deck". -/
def ExplodingKittensGame.new (deck : Int) : Except String ExplodingKittensGame :=
  if ¬ (deck ≥ 0) then
    Except.error "SPIEL_CHECK_GE(deck_, 0)"
  else if ¬ (deck < kNumDecks) then
    Except.error "SPIEL_CHECK_LT(deck_, kNumDecks)"
  else
    Except.ok { deck_ := deck }

/-- The constructor `ExplodingKittensState::ExplodingKittensState` (.cc lines
59-61) with the default member initialisers of the header.

Modelled from the spec: the initial contents of the stock are not in the
sources at hand; the spec has the state start with a full, un-shuffled stock,
every one of the `kNumCards` card identities present. -/
def ExplodingKittensState.new (kNumCards : Nat) (deck : Int) :
    ExplodingKittensState kNumCards :=
  { deck := deck
    deck_ := fun _ => true
    stock_size_ := kNumCards
    num_players_ := kNumPlayers }

/-- The function `ExplodingKittensGame::NewInitialState` (.h lines 109-112). -/
def NewInitialState (kNumCards : Nat) (_game : ExplodingKittensGame) :
    ExplodingKittensState kNumCards :=
  ExplodingKittensState.new kNumCards 0

/-! ## Chance outcomes (exploding_kittens.cc, lines 94-104) -/

/-- The quotient `1.0 / stock_size_` taken as an exact rational; for a zero
divisor the quotient is not a rational number and the result is `none`. -/
def reciprocal (stock_size : Nat) : Option ℚ :=
  if stock_size = 0 then none else some (1 / (stock_size : ℚ))

/-- One pass of the loop body of `ChanceOutcomes` for the identity `card`:
the pair `{card, p}` is pushed back when the card is still in the deck. -/
def pushOutcome {kNumCards : Nat} (s : ExplodingKittensState kNumCards) (p : Option ℚ)
    (outcomes : List (Action × Option ℚ)) (card : Fin kNumCards) :
    List (Action × Option ℚ) :=
  if s.deck_ card then outcomes ++ [((card.val : Int), p)] else outcomes

/-- The function `ExplodingKittensState::ChanceOutcomes`: the check
`SPIEL_CHECK_TRUE(IsChanceNode())`, then the loop
`for (int card = 0; card < kNumCards; ++card)` over the card identities. -/
def ChanceOutcomes {kNumCards : Nat} (s : ExplodingKittensState kNumCards) :
    Except String (List (Action × Option ℚ)) :=
  if IsChanceNode s then
    let p := reciprocal s.stock_size_
    Except.ok ((List.finRange kNumCards).foldl (pushOutcome s p) [])
  else
    Except.error "SPIEL_CHECK_TRUE(IsChanceNode())"

/-- The number of card identities marked present in the stock vector. -/
def numPresent {kNumCards : Nat} (s : ExplodingKittensState kNumCards) : Nat :=
  ((List.finRange kNumCards).filter (fun card => s.deck_ card)).length

/-! ## Applying an action (exploding_kittens.cc, lines 71-88) -/

/-- The six member functions that `DoApplyAction` dispatches to. They are
named in the `.cc` file and defined nowhere in the sources at hand, so the
dispatch takes them as a parameter; `β` is whatever a handler does to the
state. -/
structure Handlers (σ : Type) (β : Type) where
  ApplyDealAction : σ → Action → β
  ApplyPlayTurnAction : σ → Action → β
  ApplyGiveCardAction : σ → Action → β
  ApplyShuffleDrawPileAction : σ → Action → β
  ApplyMustDefuseAction : σ → Action → β
  ApplyInsertKittenRandomAction : σ → Action → β

/-- The function `ExplodingKittensState::DoApplyAction`: the switch on
`phase_`, with the fatal error of the last case. -/
def DoApplyAction {kNumCards : Nat} {β : Type}
    (H : Handlers (ExplodingKittensState kNumCards) β)
    (s : ExplodingKittensState kNumCards) (action : Action) : Except String β :=
  match s.phase_ with
  | Phase.kDeal => Except.ok (H.ApplyDealAction s action)
  | Phase.kPlayTurn => Except.ok (H.ApplyPlayTurnAction s action)
  | Phase.kGiveCard => Except.ok (H.ApplyGiveCardAction s action)
  | Phase.kShuffleDrawPile => Except.ok (H.ApplyShuffleDrawPileAction s action)
  | Phase.kMustDefuse => Except.ok (H.ApplyMustDefuseAction s action)
  | Phase.kInsertKittenRandom => Except.ok (H.ApplyInsertKittenRandomAction s action)
  | Phase.kGameOver => Except.error "Cannot act in terminal states"

/-! ## The handlers, from the phase table of the spec

The bodies of the six handlers are not in the sources at hand. What follows
is what section 4.1 of the spec says of each of them about the phase and the
awaited actor of the state `t` it leaves behind; hands and stock are left
open, so a handler is a relation between the state before and the state
after. -/

/-- Modelled from the spec: the count of plies and its cutoff are not in the
sources at hand; by the spec the game may end in any ply by reaching the
length cutoff (`MaxGameLength`), which puts it in phase GameOver. -/
def lengthCutoff {kNumCards : Nat} (t : ExplodingKittensState kNumCards) : Prop :=
  t.phase_ = Phase.kGameOver

/-- Modelled from the spec: `ApplyDealAction` is missing. Row Deal of the
table: a card goes to the player being dealt to; the phase remains Deal, with
chance to act again, or becomes PlayTurn once both hands are full, and then
the current actor is 0. -/
def specApplyDealAction {kNumCards : Nat} (_s : ExplodingKittensState kNumCards)
    (_action : Action) (t : ExplodingKittensState kNumCards) : Prop :=
  (t.phase_ = Phase.kDeal ∧ t.cur_player_ = kChancePlayerId)
  ∨ (t.phase_ = Phase.kPlayTurn ∧ t.cur_player_ = 0)
  ∨ lengthCutoff t

/-- Modelled from the spec: `ApplyPlayTurnAction` is missing. Row PlayTurn
of the table: the player who drew the ExplodingKitten must defuse; a Cat pair
makes the opponent give a card; a Shuffle hands over to chance; otherwise the
phase is PlayTurn again, for the same player or, the turn passing, for the
opponent. -/
def specApplyPlayTurnAction {kNumCards : Nat} (s : ExplodingKittensState kNumCards)
    (_action : Action) (t : ExplodingKittensState kNumCards) : Prop :=
  (t.phase_ = Phase.kMustDefuse ∧ t.cur_player_ = s.cur_player_)
  ∨ (t.phase_ = Phase.kGiveCard ∧ t.cur_player_ = Opponent s.cur_player_)
  ∨ (t.phase_ = Phase.kShuffleDrawPile ∧ t.cur_player_ = kChancePlayerId)
  ∨ (t.phase_ = Phase.kPlayTurn
      ∧ (t.cur_player_ = s.cur_player_ ∨ t.cur_player_ = Opponent s.cur_player_))
  ∨ lengthCutoff t

/-- Modelled from the spec: `ApplyGiveCardAction` is missing. Row GiveCard of
the table: the targeted player hands a card to the requester and play is back
in PlayTurn, for one of the two of them. -/
def specApplyGiveCardAction {kNumCards : Nat} (s : ExplodingKittensState kNumCards)
    (_action : Action) (t : ExplodingKittensState kNumCards) : Prop :=
  (t.phase_ = Phase.kPlayTurn
      ∧ (t.cur_player_ = s.cur_player_ ∨ t.cur_player_ = Opponent s.cur_player_))
  ∨ lengthCutoff t

/-- Modelled from the spec: `ApplyShuffleDrawPileAction` is missing. Row
ShuffleDrawPile of the table: chance permutes the stock and play is back in
PlayTurn, for player 0 or 1. -/
def specApplyShuffleDrawPileAction {kNumCards : Nat} (_s : ExplodingKittensState kNumCards)
    (_action : Action) (t : ExplodingKittensState kNumCards) : Prop :=
  (t.phase_ = Phase.kPlayTurn ∧ (t.cur_player_ = 0 ∨ t.cur_player_ = 1))
  ∨ lengthCutoff t

/-- Modelled from the spec: `ApplyMustDefuseAction` is missing. Row
MustDefuse of the table: with a Defuse the kitten goes back to the stock at a
place chosen by chance (InsertKittenRandom); without one the player is
eliminated and the game is over. -/
def specApplyMustDefuseAction {kNumCards : Nat} (_s : ExplodingKittensState kNumCards)
    (_action : Action) (t : ExplodingKittensState kNumCards) : Prop :=
  (t.phase_ = Phase.kInsertKittenRandom ∧ t.cur_player_ = kChancePlayerId)
  ∨ t.phase_ = Phase.kGameOver

/-- Modelled from the spec: `ApplyInsertKittenRandomAction` is missing. Row
InsertKittenRandom of the table: chance reinserts the kitten and PlayTurn
resumes with the same or the opponent player, player 0 or 1. -/
def specApplyInsertKittenRandomAction {kNumCards : Nat}
    (_s : ExplodingKittensState kNumCards)
    (_action : Action) (t : ExplodingKittensState kNumCards) : Prop :=
  (t.phase_ = Phase.kPlayTurn ∧ (t.cur_player_ = 0 ∨ t.cur_player_ = 1))
  ∨ lengthCutoff t

/-- Modelled from the spec: the six missing handlers, each as the relation
that the phase table of the spec gives. -/
def specHandlers (kNumCards : Nat) :
    Handlers (ExplodingKittensState kNumCards) (ExplodingKittensState kNumCards → Prop) where
  ApplyDealAction := specApplyDealAction
  ApplyPlayTurnAction := specApplyPlayTurnAction
  ApplyGiveCardAction := specApplyGiveCardAction
  ApplyShuffleDrawPileAction := specApplyShuffleDrawPileAction
  ApplyMustDefuseAction := specApplyMustDefuseAction
  ApplyInsertKittenRandomAction := specApplyInsertKittenRandomAction

/-- The states reachable from the initial state of a game: the initial state,
and every state that `DoApplyAction`, dispatching to the handlers of the
spec, can leave behind when applied to a reachable state. -/
inductive Reachable (kNumCards : Nat) (game : ExplodingKittensGame) :
    ExplodingKittensState kNumCards → Prop where
  | initial : Reachable kNumCards game (NewInitialState kNumCards game)
  | apply {s t : ExplodingKittensState kNumCards} {action : Action}
      {after : ExplodingKittensState kNumCards → Prop} :
      Reachable kNumCards game s →
      DoApplyAction (specHandlers kNumCards) s action = Except.ok after →
      after t →
      Reachable kNumCards game t

/-! ## Concrete states -/

/-- A state in phase Deal with four card identities, of which card 1 has
been dealt and cards 0, 2 and 3 are in the stock. -/
def dealingState : ExplodingKittensState 4 :=
  { deck := 0
    deck_ := fun card => decide (card.val ≠ 1)
    stock_size_ := 3
    num_players_ := kNumPlayers }

/-- The state left behind when player 0 draws the ExplodingKitten with no
Defuse in hand: the phase is GameOver and player 0 was the one to act. -/
def explodedState : ExplodingKittensState 4 :=
  { phase_ := Phase.kGameOver
    cur_player_ := 0
    prev_player_ := 1
    deck := 0
    deck_ := fun card => decide (card.val = 0)
    stock_size_ := 1
    num_players_ := kNumPlayers }

/-- A state in phase MustDefuse: player 0 has drawn the ExplodingKitten. -/
def mustDefuseState : ExplodingKittensState 4 :=
  { phase_ := Phase.kMustDefuse
    cur_player_ := 0
    prev_player_ := 1
    deck := 0
    deck_ := fun card => decide (card.val = 0)
    stock_size_ := 1
    num_players_ := kNumPlayers }

/-- The state in which play begins: phase PlayTurn, player 0 to act. -/
def firstTurnState : ExplodingKittensState 4 :=
  { phase_ := Phase.kPlayTurn
    cur_player_ := 0
    deck := 0
    deck_ := fun card => decide (card.val ≠ 1)
    stock_size_ := 3
    num_players_ := kNumPlayers }

/-- A state in phase PlayTurn in which player 1 is to act. -/
def playTurnState : ExplodingKittensState 4 :=
  { phase_ := Phase.kPlayTurn
    cur_player_ := 1
    prev_player_ := 0
    deck := 0
    deck_ := fun card => decide (card.val ≠ 1)
    stock_size_ := 3
    num_players_ := kNumPlayers }

/-- The names of the branches of the switch in `DoApplyAction`. -/
inductive Branch where
  | Deal
  | PlayTurn
  | GiveCard
  | ShuffleDrawPile
  | MustDefuse
  | InsertKittenRandom
  deriving DecidableEq, Repr

/-- Handlers that do nothing but name themselves. -/
def namingHandlers (kNumCards : Nat) :
    Handlers (ExplodingKittensState kNumCards) Branch where
  ApplyDealAction := fun _ _ => Branch.Deal
  ApplyPlayTurnAction := fun _ _ => Branch.PlayTurn
  ApplyGiveCardAction := fun _ _ => Branch.GiveCard
  ApplyShuffleDrawPileAction := fun _ _ => Branch.ShuffleDrawPile
  ApplyMustDefuseAction := fun _ _ => Branch.MustDefuse
  ApplyInsertKittenRandomAction := fun _ _ => Branch.InsertKittenRandom

/-! ## Declared constants of the game (exploding_kittens.h, lines 103-120) -/

/-- The function `ExplodingKittensGame::NumDistinctActions`. -/
def NumDistinctActions (_game : ExplodingKittensGame) : Int := kNumDistinctActions

/-- The function `ExplodingKittensGame::MaxChanceOutcomes`, which returns
`kNumCards`. -/
def MaxChanceOutcomes (kNumCards : Nat) (_game : ExplodingKittensGame) : Int := kNumCards

/-- The function `ExplodingKittensGame::NumPlayers`. -/
def NumPlayers (_game : ExplodingKittensGame) : Int := kNumPlayers

/-- The function `ExplodingKittensGame::MinUtility`. -/
def MinUtility (_game : ExplodingKittensGame) : ℚ := -1

/-- The function `ExplodingKittensGame::MaxUtility`. -/
def MaxUtility (_game : ExplodingKittensGame) : ℚ := 1

/-- The function `ExplodingKittensGame::UtilitySum`. -/
def UtilitySum (_game : ExplodingKittensGame) : ℚ := 0

/-- The function `ExplodingKittensGame::ObservationTensorShape`. -/
def ObservationTensorShape (_game : ExplodingKittensGame) : List Int :=
  [kObservationTensorSize]

/-- The function `ExplodingKittensGame::MaxGameLength`. -/
def MaxGameLength (_game : ExplodingKittensGame) : Int := 100

/-- Modelled from the spec: `Game::ObservationTensorSize` is defined in
`open_spiel/spiel.h`, which is not among the sources at hand; the spec calls
it the observation tensor length, the size of the fixed-length vector whose
shape `ObservationTensorShape` gives. -/
def ObservationTensorSize (game : ExplodingKittensGame) : Int :=
  (ObservationTensorShape game).prod

/-! ## Observations (exploding_kittens.cc, lines 124-138) -/

/-- The function `ExplodingKittensState::ObservationTensor`: the two checks on
`player`; the body does nothing else, so the vector behind `values` is after
the call what it was before. The result is that vector. -/
def ObservationTensor {kNumCards : Nat} (_s : ExplodingKittensState kNumCards)
    (player : Player) (values : List ℚ) : Except String (List ℚ) :=
  if ¬ (player ≥ 0) then
    Except.error "SPIEL_CHECK_GE(player, 0)"
  else if ¬ (player < kNumPlayers) then
    Except.error "SPIEL_CHECK_LT(player, kNumPlayers)"
  else
    Except.ok values

/-- The function `ExplodingKittensState::ObservationString`: the two checks on
`player`, the second against the member `num_players_`, then a tensor of
`game_->ObservationTensorSize()` zeros handed to `ObservationTensor`. The
source function ends there, without a return statement, so no string is
modelled: the result only tells whether a check has failed. -/
def ObservationString {kNumCards : Nat} (game : ExplodingKittensGame)
    (s : ExplodingKittensState kNumCards) (player : Player) : Except String Unit :=
  if ¬ (player ≥ 0) then
    Except.error "SPIEL_CHECK_GE(player, 0)"
  else if ¬ (player < s.num_players_) then
    Except.error "SPIEL_CHECK_LT(player, num_players_)"
  else
    let tensor : List ℚ := List.replicate (ObservationTensorSize game).toNat 0
    match ObservationTensor s player tensor with
    | Except.error e => Except.error e
    | Except.ok _ => Except.ok ()

/-! ## The initial state, as the spec has it -/

/-- The initial state of the spec, `initial_state(descriptor)`: the state
constructed for the deck selector that the descriptor holds. It is the
counterpart of `NewInitialState`, which hands over the literal 0. -/
def initialStateOfDescriptor (kNumCards : Nat) (game : ExplodingKittensGame) :
    ExplodingKittensState kNumCards :=
  ExplodingKittensState.new kNumCards game.deck_

/-! ## Dealing, from the spec

The header declares no member for the hands, and `ApplyDealAction` is not in
the sources at hand. The hands are kept beside the state, the hand of player
0 first, and the handler is a function of the state, the action and the
hands. -/

/-- Modelled from the spec: the hands are missing from the header; by the
spec each of the two players has a hand of cards, empty before the deal. -/
abbrev Hands (kNumCards : Nat) := List (Fin kNumCards) × List (Fin kNumCards)

/-- A hand is full when it holds `kHandSize` cards. -/
def handFull {kNumCards : Nat} (hand : List (Fin kNumCards)) : Bool :=
  decide ((hand.length : Int) ≥ kHandSize)

/-- Modelled from the spec: the player currently being dealt to, missing with
`ApplyDealAction`. The spec deals until both hands reach `kHandSize` and does
not fix the order, so the order is the parameter `pick` (true for player 1),
asked only while neither hand is full. -/
def dealTarget {kNumCards : Nat} (pick : Hands kNumCards → Bool) (hands : Hands kNumCards) :
    Player :=
  if handFull hands.1 then 1
  else if handFull hands.2 then 0
  else if pick hands then 1 else 0

/-- The hands after `player` has been given `card`. -/
def giveCard {kNumCards : Nat} (hands : Hands kNumCards) (player : Player)
    (card : Fin kNumCards) : Hands kNumCards :=
  if player = 0 then (hands.1 ++ [card], hands.2) else (hands.1, hands.2 ++ [card])

/-- Modelled from the spec: `ApplyDealAction` is missing. Row Deal of the
table and section 6: the action must be a card identity still present in the
stock, anything else is fatal; the card leaves the stock and goes to the
player currently being dealt to; once both hands are full the phase becomes
PlayTurn and the current actor is 0, until then the phase remains Deal. -/
def ApplyDealAction {kNumCards : Nat} (pick : Hands kNumCards → Bool)
    (s : ExplodingKittensState kNumCards) (action : Action) (hands : Hands kNumCards) :
    Except String (ExplodingKittensState kNumCards × Hands kNumCards) :=
  if h : 0 ≤ action ∧ action < (kNumCards : Int) then
    let card : Fin kNumCards := ⟨action.toNat, (Int.toNat_lt h.1).mpr h.2⟩
    if s.deck_ card then
      let t : ExplodingKittensState kNumCards :=
        { s with
          deck_ := fun c => if c = card then false else s.deck_ c
          stock_size_ := s.stock_size_ - 1 }
      let dealt := giveCard hands (dealTarget pick hands) card
      if handFull dealt.1 && handFull dealt.2 then
        Except.ok ({ t with phase_ := Phase.kPlayTurn, cur_player_ := 0 }, dealt)
      else
        Except.ok (t, dealt)
    else
      Except.error "card is not in the stock"
  else
    Except.error "action is not a card"

/-- What a handler does when the hands are kept beside the state. -/
abbrev HandsHandler (kNumCards : Nat) :=
  Hands kNumCards → Except String (ExplodingKittensState kNumCards × Hands kNumCards)

/-- The handlers `other` with `ApplyDealAction` as the spec has it. -/
def dealHandlers {kNumCards : Nat} (pick : Hands kNumCards → Bool)
    (other : Handlers (ExplodingKittensState kNumCards) (HandsHandler kNumCards)) :
    Handlers (ExplodingKittensState kNumCards) (HandsHandler kNumCards) :=
  { other with ApplyDealAction := ApplyDealAction pick }

/-- The actions applied one after the other through `DoApplyAction`; the
first failure ends the run. -/
def applyActions {kNumCards : Nat}
    (H : Handlers (ExplodingKittensState kNumCards) (HandsHandler kNumCards)) :
    List Action → ExplodingKittensState kNumCards × Hands kNumCards →
      Except String (ExplodingKittensState kNumCards × Hands kNumCards)
  | [], position => Except.ok position
  | action :: rest, position =>
    match DoApplyAction H position.1 action with
    | Except.error e => Except.error e
    | Except.ok handler =>
      match handler position.2 with
      | Except.error e => Except.error e
      | Except.ok next => applyActions H rest next

/-- Handlers that are not modelled: each of them fails. -/
def unmodelledHandlers (kNumCards : Nat) :
    Handlers (ExplodingKittensState kNumCards) (HandsHandler kNumCards) where
  ApplyDealAction := fun _ _ _ => Except.error "not modelled"
  ApplyPlayTurnAction := fun _ _ _ => Except.error "not modelled"
  ApplyGiveCardAction := fun _ _ _ => Except.error "not modelled"
  ApplyShuffleDrawPileAction := fun _ _ _ => Except.error "not modelled"
  ApplyMustDefuseAction := fun _ _ _ => Except.error "not modelled"
  ApplyInsertKittenRandomAction := fun _ _ _ => Except.error "not modelled"

/-- A dealing order: the cards go to the two players in turn, player 0
first. -/
def alternately {kNumCards : Nat} (hands : Hands kNumCards) : Bool :=
  decide (hands.2.length < hands.1.length)

/-! ## Shared lemmas -/

theorem IsTerminal_iff {kNumCards : Nat} (s : ExplodingKittensState kNumCards) :
    IsTerminal s = true ↔ s.phase_ = Phase.kGameOver := by
  simp [IsTerminal]

theorem CurrentPlayer_of_terminal {kNumCards : Nat} (s : ExplodingKittensState kNumCards)
    (h : s.phase_ = Phase.kGameOver) : CurrentPlayer s = kTerminalPlayerId := by
  simp [CurrentPlayer, IsTerminal, h]

theorem CurrentPlayer_of_not_terminal {kNumCards : Nat} (s : ExplodingKittensState kNumCards)
    (h : s.phase_ ≠ Phase.kGameOver) : CurrentPlayer s = s.cur_player_ := by
  simp [CurrentPlayer, IsTerminal, h]

theorem Returns_eq_zeros {kNumCards : Nat} (s : ExplodingKittensState kNumCards) :
    Returns s = [0, 0] := by
  unfold Returns
  split <;> rfl

theorem Opponent_is_player {p : Int} (h : p = 0 ∨ p = 1) :
    Opponent p = 0 ∨ Opponent p = 1 := by
  rcases h with h | h <;> subst h <;> simp [Opponent]

/-- The loop of `ChanceOutcomes` appends, in order, one pair for every card of
the range that is marked present. -/
theorem foldl_pushOutcome {kNumCards : Nat} (s : ExplodingKittensState kNumCards)
    (p : Option ℚ) (cards : List (Fin kNumCards)) (outcomes : List (Action × Option ℚ)) :
    cards.foldl (pushOutcome s p) outcomes
      = outcomes ++ (cards.filter (fun card => s.deck_ card)).map
          (fun card => ((card.val : Int), p)) := by
  induction cards generalizing outcomes with
  | nil => simp
  | cons card rest ih =>
    rw [List.foldl_cons, ih]
    by_cases hc : s.deck_ card = true
    · simp [pushOutcome, hc, List.filter_cons]
    · simp [pushOutcome, hc, List.filter_cons]

theorem ChanceOutcomes_of_chance {kNumCards : Nat} (s : ExplodingKittensState kNumCards)
    (h : CurrentPlayer s = kChancePlayerId) :
    ChanceOutcomes s = Except.ok
      (((List.finRange kNumCards).filter (fun card => s.deck_ card)).map
        (fun card => ((card.val : Int), reciprocal s.stock_size_))) := by
  simp [ChanceOutcomes, IsChanceNode, h, foldl_pushOutcome]

theorem ChanceOutcomes_of_not_chance {kNumCards : Nat} (s : ExplodingKittensState kNumCards)
    (h : CurrentPlayer s ≠ kChancePlayerId) :
    ChanceOutcomes s = Except.error "SPIEL_CHECK_TRUE(IsChanceNode())" := by
  simp [ChanceOutcomes, IsChanceNode, h]

/-- The actor invariant: the stored current player is the chance identifier
in the phases Deal, ShuffleDrawPile and InsertKittenRandom, and a player index
in the phases PlayTurn, GiveCard and MustDefuse. -/
theorem Reachable_actor {kNumCards : Nat} {game : ExplodingKittensGame}
    {s : ExplodingKittensState kNumCards} (h : Reachable kNumCards game s) :
    ((s.phase_ = Phase.kDeal ∨ s.phase_ = Phase.kShuffleDrawPile
        ∨ s.phase_ = Phase.kInsertKittenRandom) → s.cur_player_ = kChancePlayerId)
    ∧ ((s.phase_ = Phase.kPlayTurn ∨ s.phase_ = Phase.kGiveCard
        ∨ s.phase_ = Phase.kMustDefuse) → s.cur_player_ = 0 ∨ s.cur_player_ = 1) := by
  induction h with
  | initial =>
    constructor
    · intro _; rfl
    · intro hp
      rcases hp with hp | hp | hp <;> cases hp
  | @apply s t action after _ hdisp hafter ih =>
    obtain ⟨_, ihp⟩ := ih
    have hopp : ∀ {p : Int}, (p = 0 ∨ p = 1) → ∀ {q : Int}, (q = p ∨ q = Opponent p) →
        (q = 0 ∨ q = 1) := by
      intro p hp q hq
      rcases hq with hq | hq
      · rw [hq]; exact hp
      · rw [hq]; exact Opponent_is_player hp
    unfold DoApplyAction at hdisp
    split at hdisp
    all_goals cases hdisp
    · rename_i hs
      rcases hafter with ⟨hp, hc⟩ | ⟨hp, hc⟩ | hp
      · simp [hp, hc]
      · simp [hp, hc]
      · simp [show t.phase_ = Phase.kGameOver from hp]
    · rename_i hs
      have hcur := ihp (Or.inl hs)
      rcases hafter with ⟨hp, hc⟩ | ⟨hp, hc⟩ | ⟨hp, hc⟩ | ⟨hp, hc⟩ | hp
      · simp [hp, hc, hcur]
      · simp [hp, hc, Opponent_is_player hcur]
      · simp [hp, hc]
      · simp [hp, hopp hcur hc]
      · simp [show t.phase_ = Phase.kGameOver from hp]
    · rename_i hs
      have hcur := ihp (Or.inr (Or.inl hs))
      rcases hafter with ⟨hp, hc⟩ | hp
      · simp [hp, hopp hcur hc]
      · simp [show t.phase_ = Phase.kGameOver from hp]
    · rcases hafter with ⟨hp, hc⟩ | hp
      · simp [hp, hc]
      · simp [show t.phase_ = Phase.kGameOver from hp]
    · rcases hafter with ⟨hp, hc⟩ | hp
      · simp [hp, hc]
      · simp [hp]
    · rcases hafter with ⟨hp, hc⟩ | hp
      · simp [hp, hc]
      · simp [show t.phase_ = Phase.kGameOver from hp]

/-- In a reachable state that is not in phase GameOver the stored current
player is not the terminal identifier: it is the chance identifier or a
player index. -/
theorem Reachable_stored_player {kNumCards : Nat} {game : ExplodingKittensGame}
    {s : ExplodingKittensState kNumCards} (h : Reachable kNumCards game s)
    (hphase : s.phase_ ≠ Phase.kGameOver) : s.cur_player_ ≠ kTerminalPlayerId := by
  obtain ⟨hchance, hplayer⟩ := Reachable_actor h
  intro hstored
  cases hp : s.phase_ with
  | kDeal =>
    have := hchance (Or.inl hp); rw [hstored] at this; exact absurd this (by decide)
  | kPlayTurn =>
    have := hplayer (Or.inl hp); rw [hstored] at this
    rcases this with h0 | h1
    · exact absurd h0 (by decide)
    · exact absurd h1 (by decide)
  | kGiveCard =>
    have := hplayer (Or.inr (Or.inl hp)); rw [hstored] at this
    rcases this with h0 | h1
    · exact absurd h0 (by decide)
    · exact absurd h1 (by decide)
  | kShuffleDrawPile =>
    have := hchance (Or.inr (Or.inl hp)); rw [hstored] at this; exact absurd this (by decide)
  | kMustDefuse =>
    have := hplayer (Or.inr (Or.inr hp)); rw [hstored] at this
    rcases this with h0 | h1
    · exact absurd h0 (by decide)
    · exact absurd h1 (by decide)
  | kInsertKittenRandom =>
    have := hchance (Or.inr (Or.inr hp)); rw [hstored] at this; exact absurd this (by decide)
  | kGameOver => exact hphase hp

/-- The state in which play begins is reachable: one ply of the deal. -/
theorem Reachable_firstTurnState : Reachable 4 { deck_ := 0 } firstTurnState :=
  Reachable.apply Reachable.initial
    (show DoApplyAction (specHandlers 4) (NewInitialState 4 { deck_ := 0 }) 0
      = Except.ok (specApplyDealAction (NewInitialState 4 { deck_ := 0 }) 0) from rfl)
    (show specApplyDealAction (NewInitialState 4 { deck_ := 0 }) 0 firstTurnState from
      Or.inr (Or.inl ⟨rfl, rfl⟩))

/-- The state in which player 1 is to play a turn is reachable: player 0
passes the turn. -/
theorem Reachable_playTurnState : Reachable 4 { deck_ := 0 } playTurnState :=
  Reachable.apply Reachable_firstTurnState
    (show DoApplyAction (specHandlers 4) firstTurnState 0
      = Except.ok (specApplyPlayTurnAction firstTurnState 0) from rfl)
    (show specApplyPlayTurnAction firstTurnState 0 playTurnState from
      Or.inr (Or.inr (Or.inr (Or.inl ⟨rfl, Or.inr (by decide)⟩))))

/-- The state in which player 0 must defuse is reachable: player 0 draws the
ExplodingKitten. -/
theorem Reachable_mustDefuseState : Reachable 4 { deck_ := 0 } mustDefuseState :=
  Reachable.apply Reachable_firstTurnState
    (show DoApplyAction (specHandlers 4) firstTurnState 0
      = Except.ok (specApplyPlayTurnAction firstTurnState 0) from rfl)
    (show specApplyPlayTurnAction firstTurnState 0 mustDefuseState from
      Or.inl ⟨rfl, rfl⟩)

/-- The state left by the explosion of player 0 is reachable. -/
theorem Reachable_explodedState : Reachable 4 { deck_ := 0 } explodedState :=
  Reachable.apply Reachable_mustDefuseState
    (show DoApplyAction (specHandlers 4) mustDefuseState 0
      = Except.ok (specApplyMustDefuseAction mustDefuseState 0) from rfl)
    (show specApplyMustDefuseAction mustDefuseState 0 explodedState from Or.inr rfl)

/-! ## Returns -/

/-- Claim C1, as the code has it: in the terminal state that the explosion of
player 0 leaves behind (player 0, in phase MustDefuse, has no Defuse),
`Returns` is the zero vector, which is neither `[-1, 1]` nor `[1, -1]`; no
player is given -1 or +1. -/
theorem Returns_after_explosion :
    (∃ after, DoApplyAction (specHandlers 4) mustDefuseState 0 = Except.ok after
        ∧ after explodedState)
    ∧ IsTerminal explodedState = true
    ∧ Returns explodedState = [0, 0]
    ∧ Returns explodedState ≠ [-1, 1] ∧ Returns explodedState ≠ [1, -1] := by
  refine ⟨⟨_, rfl, Or.inr rfl⟩, by decide, Returns_eq_zeros _, ?_, ?_⟩
    <;> rw [Returns_eq_zeros] <;> simp

/-! ## The deck -/

/-- Claim C2, as the code has it: `kNumCardsInDeck` is 24, two more than the
sum of the per-card-type counts of the deck composition, which is 22; the
header adds `kNumSlap1xCards` twice and `kNumSlap2xCards` not at all. -/
theorem kNumCardsInDeck_value :
    kNumCardsInDeck = 24
    ∧ kNumSkipCards + kNumSlap1xCards + kNumSlap2xCards + kNumSeeTheFutureCards
        + kNumShuffleCards + kNumDrawFromTheBottomCards + kNumCatCards + kNumPlayers + 1 = 22
    ∧ kNumCardsInDeck ≠ kNumSkipCards + kNumSlap1xCards + kNumSlap2xCards
        + kNumSeeTheFutureCards + kNumShuffleCards + kNumDrawFromTheBottomCards
        + kNumCatCards + kNumPlayers + 1 := by
  decide

/-! ## Chance outcomes -/

/-- Claim C3: in a state whose current actor is chance and whose `stock_size_`
is positive and equal to the number of card identities marked present in the
stock vector, `ChanceOutcomes` succeeds, every probability is a rational
number, the probabilities sum to exactly 1, and every listed action is a card
identity that is still present in the stock. -/
theorem ChanceOutcomes_sum_one {kNumCards : Nat} (s : ExplodingKittensState kNumCards)
    (hchance : CurrentPlayer s = kChancePlayerId)
    (hpos : 0 < s.stock_size_)
    (hsize : s.stock_size_ = numPresent s) :
    ∃ outcomes : List (Action × ℚ),
      ChanceOutcomes s = Except.ok (outcomes.map (fun o => (o.1, some o.2)))
      ∧ (outcomes.map Prod.snd).sum = 1
      ∧ ∀ o ∈ outcomes, ∃ card : Fin kNumCards, o.1 = (card.val : Int) ∧ s.deck_ card = true := by
  have hne : s.stock_size_ ≠ 0 := Nat.pos_iff_ne_zero.mp hpos
  refine ⟨((List.finRange kNumCards).filter (fun card => s.deck_ card)).map
      (fun card => ((card.val : Int), (1 / (s.stock_size_ : ℚ)))), ?_, ?_, ?_⟩
  · rw [ChanceOutcomes_of_chance s hchance, List.map_map]
    simp [reciprocal, hne, Function.comp_def]
  · have hq : (s.stock_size_ : ℚ) ≠ 0 := by exact_mod_cast hne
    have hlen : (((List.finRange kNumCards).filter (fun card => s.deck_ card)).length : ℚ)
        = (s.stock_size_ : ℚ) := by
      rw [hsize]; rfl
    rw [List.map_map]
    have hconst : (Prod.snd ∘ fun card : Fin kNumCards =>
        (((card.val : Int) : Action), (1 / (s.stock_size_ : ℚ))))
        = fun _ => (1 / (s.stock_size_ : ℚ)) := rfl
    rw [hconst, List.map_const', List.sum_replicate, nsmul_eq_mul, hlen]
    field_simp
  · intro o ho
    rw [List.mem_map] at ho
    obtain ⟨card, hcard, rfl⟩ := ho
    exact ⟨card, rfl, by simpa using (List.mem_filter.mp hcard).2⟩

/-- Witness of `ChanceOutcomes_sum_one`: the dealing state, with cards 0, 2
and 3 in a stock of size 3. -/
theorem ChanceOutcomes_sum_one_witness :
    CurrentPlayer dealingState = kChancePlayerId
    ∧ 0 < dealingState.stock_size_
    ∧ dealingState.stock_size_ = numPresent dealingState
    ∧ ∃ outcomes : List (Action × ℚ),
        ChanceOutcomes dealingState = Except.ok (outcomes.map (fun o => (o.1, some o.2)))
        ∧ (outcomes.map Prod.snd).sum = 1
        ∧ ∀ o ∈ outcomes, ∃ card : Fin 4, o.1 = (card.val : Int)
            ∧ dealingState.deck_ card = true :=
  ⟨by decide, by decide, by decide,
    ChanceOutcomes_sum_one dealingState (by decide) (by decide) (by decide)⟩

/-- Claim C4: in a state whose current actor is chance, `ChanceOutcomes`
succeeds and its actions are exactly the card identities `c` below `kNumCards`
that are still present in the stock, listed in increasing order of `c`
and each exactly once, and every outcome carries the same probability: the
rational number `1 / stock_size_` when `stock_size_` is not zero, and no
rational number when it is zero. -/
theorem ChanceOutcomes_lists_stock {kNumCards : Nat} (s : ExplodingKittensState kNumCards)
    (hchance : CurrentPlayer s = kChancePlayerId) :
    ∃ outcomes : List (Action × Option ℚ),
      ChanceOutcomes s = Except.ok outcomes
      ∧ (∀ a : Action, a ∈ outcomes.map Prod.fst
            ↔ ∃ card : Fin kNumCards, a = (card.val : Int) ∧ s.deck_ card = true)
      ∧ (outcomes.map Prod.fst).Pairwise (fun a b => a < b)
      ∧ (outcomes.map Prod.fst).Nodup
      ∧ (∀ card : Fin kNumCards, s.deck_ card = true →
            (outcomes.map Prod.fst).count (card.val : Int) = 1)
      ∧ (∀ o ∈ outcomes, ∀ o2 ∈ outcomes, o.2 = o2.2)
      ∧ (∀ o ∈ outcomes, s.stock_size_ ≠ 0 → o.2 = some (1 / (s.stock_size_ : ℚ)))
      ∧ (∀ o ∈ outcomes, s.stock_size_ = 0 → o.2 = none) := by
  have hfst : ((((List.finRange kNumCards).filter (fun card => s.deck_ card)).map
        (fun card => (((card.val : Int) : Action), reciprocal s.stock_size_))).map Prod.fst)
      = ((List.finRange kNumCards).filter (fun card => s.deck_ card)).map
          (fun card => (card.val : Int)) := by
    rw [List.map_map]; rfl
  have hmem : ∀ a : Action,
      a ∈ ((List.finRange kNumCards).filter (fun card => s.deck_ card)).map
          (fun card => (card.val : Int))
        ↔ ∃ card : Fin kNumCards, a = (card.val : Int) ∧ s.deck_ card = true := by
    intro a
    constructor
    · intro ha
      obtain ⟨card, hcard, rfl⟩ := List.mem_map.mp ha
      exact ⟨card, rfl, by simpa using (List.mem_filter.mp hcard).2⟩
    · rintro ⟨card, rfl, hcard⟩
      exact List.mem_map.mpr ⟨card, List.mem_filter.mpr ⟨List.mem_finRange card, by simpa using hcard⟩, rfl⟩
  have hsorted : (((List.finRange kNumCards).filter (fun card => s.deck_ card)).map
      (fun card => (card.val : Int))).Pairwise (fun a b => a < b) := by
    apply List.Pairwise.map (fun card : Fin kNumCards => (card.val : Int)) _
      ((List.pairwise_lt_finRange kNumCards).filter _)
    intro a b hab
    show ((a.val : Int)) < (b.val : Int)
    exact_mod_cast hab
  have hnodup : (((List.finRange kNumCards).filter (fun card => s.deck_ card)).map
      (fun card => (card.val : Int))).Nodup :=
    hsorted.imp (fun h => ne_of_lt h)
  refine ⟨_, ChanceOutcomes_of_chance s hchance, ?_, ?_, ?_, ?_, ?_, ?_, ?_⟩
  · intro a; rw [hfst]; exact hmem a
  · rw [hfst]; exact hsorted
  · rw [hfst]; exact hnodup
  · intro card hcard
    rw [hfst]
    exact List.count_eq_one_of_mem hnodup ((hmem _).mpr ⟨card, rfl, hcard⟩)
  · intro o ho o2 ho2
    obtain ⟨card, _, rfl⟩ := List.mem_map.mp ho
    obtain ⟨card2, _, rfl⟩ := List.mem_map.mp ho2
    rfl
  · intro o ho hne
    obtain ⟨card, _, rfl⟩ := List.mem_map.mp ho
    show reciprocal s.stock_size_ = some (1 / (s.stock_size_ : ℚ))
    unfold reciprocal
    rw [if_neg hne]
  · intro o ho hzero
    obtain ⟨card, _, rfl⟩ := List.mem_map.mp ho
    show reciprocal s.stock_size_ = none
    unfold reciprocal
    rw [if_pos hzero]

/-- Witness of `ChanceOutcomes_lists_stock`: the dealing state, whose chance
outcomes are the cards 0, 2 and 3, each with probability one third. -/
theorem ChanceOutcomes_lists_stock_witness :
    CurrentPlayer dealingState = kChancePlayerId
    ∧ ∃ outcomes : List (Action × Option ℚ),
      ChanceOutcomes dealingState = Except.ok outcomes
      ∧ (∀ a : Action, a ∈ outcomes.map Prod.fst
            ↔ ∃ card : Fin 4, a = (card.val : Int) ∧ dealingState.deck_ card = true)
      ∧ (outcomes.map Prod.fst).Pairwise (fun a b => a < b)
      ∧ (outcomes.map Prod.fst).Nodup
      ∧ (∀ card : Fin 4, dealingState.deck_ card = true →
            (outcomes.map Prod.fst).count (card.val : Int) = 1)
      ∧ (∀ o ∈ outcomes, ∀ o2 ∈ outcomes, o.2 = o2.2)
      ∧ (∀ o ∈ outcomes, (3 : Nat) ≠ 0 → o.2 = some (1 / ((3 : Nat) : ℚ)))
      ∧ (∀ o ∈ outcomes, (3 : Nat) = 0 → o.2 = none) :=
  ⟨by decide, ChanceOutcomes_lists_stock dealingState (by decide)⟩

/-- The chance outcomes of the dealing state, evaluated: the cards 0, 2 and
3, each with probability one third. -/
theorem ChanceOutcomes_dealingState :
    ChanceOutcomes dealingState
      = Except.ok [(0, some (1 / ((3 : Nat) : ℚ))), (2, some (1 / ((3 : Nat) : ℚ))),
          (3, some (1 / ((3 : Nat) : ℚ)))] := by
  rw [ChanceOutcomes_of_chance dealingState (by decide)]
  rfl

/-! ## The current actor -/

/-- Claim C5: in every state reachable from the initial state, `CurrentPlayer`
returns the chance identifier when the phase is Deal, ShuffleDrawPile or
InsertKittenRandom, and a player index, 0 or 1, when the phase is PlayTurn,
GiveCard or MustDefuse. -/
theorem CurrentPlayer_by_phase {kNumCards : Nat} (game : ExplodingKittensGame)
    (s : ExplodingKittensState kNumCards) (h : Reachable kNumCards game s) :
    ((s.phase_ = Phase.kDeal ∨ s.phase_ = Phase.kShuffleDrawPile
        ∨ s.phase_ = Phase.kInsertKittenRandom) → CurrentPlayer s = kChancePlayerId)
    ∧ ((s.phase_ = Phase.kPlayTurn ∨ s.phase_ = Phase.kGiveCard
        ∨ s.phase_ = Phase.kMustDefuse) → CurrentPlayer s = 0 ∨ CurrentPlayer s = 1) := by
  obtain ⟨hchance, hplayer⟩ := Reachable_actor h
  constructor
  · intro hp
    rw [CurrentPlayer_of_not_terminal s (by rcases hp with hp | hp | hp <;> simp [hp])]
    exact hchance hp
  · intro hp
    rw [CurrentPlayer_of_not_terminal s (by rcases hp with hp | hp | hp <;> simp [hp])]
    exact hplayer hp

/-- Witness of `CurrentPlayer_by_phase`: the initial state, in phase Deal, and
the state two plies later in which the turn has passed to player 1. -/
theorem CurrentPlayer_by_phase_witness :
    CurrentPlayer (NewInitialState 4 { deck_ := 0 }) = kChancePlayerId
    ∧ (CurrentPlayer playTurnState = 0 ∨ CurrentPlayer playTurnState = 1) :=
  ⟨(CurrentPlayer_by_phase { deck_ := 0 } (NewInitialState 4 { deck_ := 0 })
      Reachable.initial).1 (Or.inl rfl),
   (CurrentPlayer_by_phase { deck_ := 0 } playTurnState
      (Reachable.apply
        (Reachable.apply Reachable.initial
          (show DoApplyAction (specHandlers 4) (NewInitialState 4 { deck_ := 0 }) 0
            = Except.ok (specApplyDealAction (NewInitialState 4 { deck_ := 0 }) 0) from rfl)
          (show specApplyDealAction (NewInitialState 4 { deck_ := 0 }) 0 firstTurnState from
            Or.inr (Or.inl ⟨rfl, rfl⟩)))
        (show DoApplyAction (specHandlers 4) firstTurnState 0
            = Except.ok (specApplyPlayTurnAction firstTurnState 0) from rfl)
        (show specApplyPlayTurnAction firstTurnState 0 playTurnState from
          Or.inr (Or.inr (Or.inr (Or.inl ⟨rfl, Or.inr (by decide)⟩)))))).2 (Or.inl rfl)⟩

/-- Claim C6: in every state that the game reaches from its initial state,
`CurrentPlayer` returns the terminal identifier if and only if the phase is
GameOver, that is, if and only if `IsTerminal` is true; and in every state,
reached or not, `IsTerminal` is true exactly in phase GameOver,
`CurrentPlayer` returns the terminal identifier in phase GameOver, and in
every other phase it returns the stored current player unchanged. -/
theorem CurrentPlayer_terminal_iff {kNumCards : Nat} (game : ExplodingKittensGame)
    (s : ExplodingKittensState kNumCards) :
    (Reachable kNumCards game s →
        (CurrentPlayer s = kTerminalPlayerId ↔ s.phase_ = Phase.kGameOver))
    ∧ (Reachable kNumCards game s →
        (CurrentPlayer s = kTerminalPlayerId ↔ IsTerminal s = true))
    ∧ (IsTerminal s = true ↔ s.phase_ = Phase.kGameOver)
    ∧ (s.phase_ = Phase.kGameOver → CurrentPlayer s = kTerminalPlayerId)
    ∧ (s.phase_ ≠ Phase.kGameOver → CurrentPlayer s = s.cur_player_) := by
  have hiff : Reachable kNumCards game s →
      (CurrentPlayer s = kTerminalPlayerId ↔ s.phase_ = Phase.kGameOver) := by
    intro hreach
    constructor
    · intro hcur
      by_contra hp
      rw [CurrentPlayer_of_not_terminal s hp] at hcur
      exact Reachable_stored_player hreach hp hcur
    · exact CurrentPlayer_of_terminal s
  exact ⟨hiff, fun hreach => (hiff hreach).trans (IsTerminal_iff s).symm, IsTerminal_iff s,
    CurrentPlayer_of_terminal s, CurrentPlayer_of_not_terminal s⟩

/-- Witness of `CurrentPlayer_terminal_iff`: two reachable states, the
terminal state left by the explosion of player 0, where `CurrentPlayer` is
the terminal identifier, and the state in which player 1 is to play a turn,
where it is the stored player 1. -/
theorem CurrentPlayer_terminal_iff_witness :
    (CurrentPlayer explodedState = kTerminalPlayerId
        ↔ explodedState.phase_ = Phase.kGameOver)
    ∧ CurrentPlayer explodedState = kTerminalPlayerId
    ∧ (CurrentPlayer playTurnState = kTerminalPlayerId
        ↔ playTurnState.phase_ = Phase.kGameOver)
    ∧ (CurrentPlayer playTurnState = kTerminalPlayerId ↔ IsTerminal playTurnState = true)
    ∧ CurrentPlayer playTurnState = playTurnState.cur_player_ :=
  ⟨(CurrentPlayer_terminal_iff { deck_ := 0 } explodedState).1 Reachable_explodedState,
   (CurrentPlayer_terminal_iff { deck_ := 0 } explodedState).2.2.2.1 rfl,
   (CurrentPlayer_terminal_iff { deck_ := 0 } playTurnState).1 Reachable_playTurnState,
   (CurrentPlayer_terminal_iff { deck_ := 0 } playTurnState).2.1 Reachable_playTurnState,
   (CurrentPlayer_terminal_iff { deck_ := 0 } playTurnState).2.2.2.2 (by decide)⟩

/-- Claim C7: the state produced by `NewInitialState` is in phase Deal, is
not terminal, and its current actor is the chance identifier. -/
theorem NewInitialState_is_deal (kNumCards : Nat) (game : ExplodingKittensGame) :
    (NewInitialState kNumCards game).phase_ = Phase.kDeal
    ∧ IsTerminal (NewInitialState kNumCards game) = false
    ∧ CurrentPlayer (NewInitialState kNumCards game) = kChancePlayerId :=
  ⟨rfl, rfl, rfl⟩

/-! ## Dispatch of an action -/

/-- Claim C8: `DoApplyAction` fails with the fatal error "Cannot act in
terminal states" if and only if the phase is GameOver, it fails in no other
way, and in each of the six other phases it is that phase's own handler that
is run on the state and the action. -/
theorem DoApplyAction_dispatch {kNumCards : Nat} {β : Type}
    (H : Handlers (ExplodingKittensState kNumCards) β)
    (s : ExplodingKittensState kNumCards) (action : Action) :
    (DoApplyAction H s action = Except.error "Cannot act in terminal states"
        ↔ s.phase_ = Phase.kGameOver)
    ∧ ((∃ e, DoApplyAction H s action = Except.error e) ↔ s.phase_ = Phase.kGameOver)
    ∧ (s.phase_ = Phase.kDeal →
        DoApplyAction H s action = Except.ok (H.ApplyDealAction s action))
    ∧ (s.phase_ = Phase.kPlayTurn →
        DoApplyAction H s action = Except.ok (H.ApplyPlayTurnAction s action))
    ∧ (s.phase_ = Phase.kGiveCard →
        DoApplyAction H s action = Except.ok (H.ApplyGiveCardAction s action))
    ∧ (s.phase_ = Phase.kShuffleDrawPile →
        DoApplyAction H s action = Except.ok (H.ApplyShuffleDrawPileAction s action))
    ∧ (s.phase_ = Phase.kMustDefuse →
        DoApplyAction H s action = Except.ok (H.ApplyMustDefuseAction s action))
    ∧ (s.phase_ = Phase.kInsertKittenRandom →
        DoApplyAction H s action = Except.ok (H.ApplyInsertKittenRandomAction s action)) := by
  unfold DoApplyAction
  cases hp : s.phase_ <;> simp

/-- Witness of `DoApplyAction_dispatch`: with handlers that name themselves,
a state in phase Deal runs the Deal handler, a state in phase PlayTurn the
PlayTurn handler, a state in phase MustDefuse the MustDefuse handler, and a
state in phase GameOver meets the fatal error. -/
theorem DoApplyAction_dispatch_witness :
    DoApplyAction (namingHandlers 4) dealingState 2 = Except.ok Branch.Deal
    ∧ DoApplyAction (namingHandlers 4) playTurnState 0 = Except.ok Branch.PlayTurn
    ∧ DoApplyAction (namingHandlers 4) mustDefuseState 0 = Except.ok Branch.MustDefuse
    ∧ DoApplyAction (namingHandlers 4) explodedState 0
        = Except.error "Cannot act in terminal states" :=
  ⟨(DoApplyAction_dispatch (namingHandlers 4) dealingState 2).2.2.1 rfl,
   (DoApplyAction_dispatch (namingHandlers 4) playTurnState 0).2.2.2.1 rfl,
   (DoApplyAction_dispatch (namingHandlers 4) mustDefuseState 0).2.2.2.2.2.2.1 rfl,
   (DoApplyAction_dispatch (namingHandlers 4) explodedState 0).1.mpr rfl⟩

/-! ## Contract checks -/

/-- Claim C9: `ChanceOutcomes` fails, on its check of `IsChanceNode`, if and
only if the current actor is not the chance identifier; so it fails in every
terminal state and in every state whose current actor is player 0 or 1, and
it succeeds in every state whose current actor is chance. -/
theorem ChanceOutcomes_fails_iff {kNumCards : Nat} (s : ExplodingKittensState kNumCards) :
    ((∃ e, ChanceOutcomes s = Except.error e) ↔ CurrentPlayer s ≠ kChancePlayerId)
    ∧ (ChanceOutcomes s = Except.error "SPIEL_CHECK_TRUE(IsChanceNode())"
        ↔ CurrentPlayer s ≠ kChancePlayerId)
    ∧ (IsTerminal s = true → ∃ e, ChanceOutcomes s = Except.error e)
    ∧ (CurrentPlayer s = 0 ∨ CurrentPlayer s = 1 → ∃ e, ChanceOutcomes s = Except.error e)
    ∧ (CurrentPlayer s = kChancePlayerId → ∃ outcomes, ChanceOutcomes s = Except.ok outcomes) := by
  have hfail : CurrentPlayer s ≠ kChancePlayerId →
      ChanceOutcomes s = Except.error "SPIEL_CHECK_TRUE(IsChanceNode())" :=
    ChanceOutcomes_of_not_chance s
  have hok : CurrentPlayer s = kChancePlayerId → ∃ outcomes, ChanceOutcomes s = Except.ok outcomes :=
    fun h => ⟨_, ChanceOutcomes_of_chance s h⟩
  refine ⟨⟨?_, fun h => ⟨_, hfail h⟩⟩, ⟨?_, hfail⟩, ?_, ?_, hok⟩
  · rintro ⟨e, he⟩ hc
    obtain ⟨outcomes, ho⟩ := hok hc
    rw [ho] at he
    cases he
  · intro he hc
    obtain ⟨outcomes, ho⟩ := hok hc
    rw [ho] at he
    cases he
  · intro ht
    refine ⟨_, hfail ?_⟩
    rw [CurrentPlayer_of_terminal s ((IsTerminal_iff s).mp ht)]
    decide
  · intro hp
    refine ⟨_, hfail ?_⟩
    rcases hp with hp | hp <;> rw [hp] <;> decide

/-- Witness of `ChanceOutcomes_fails_iff`: the query fails in the terminal
state left by an explosion and in the state in which player 1 is to act, and
succeeds in the dealing state. -/
theorem ChanceOutcomes_fails_iff_witness :
    (∃ e, ChanceOutcomes explodedState = Except.error e)
    ∧ (∃ e, ChanceOutcomes playTurnState = Except.error e)
    ∧ (∃ outcomes, ChanceOutcomes dealingState = Except.ok outcomes) :=
  ⟨(ChanceOutcomes_fails_iff explodedState).2.2.1 (by decide),
   (ChanceOutcomes_fails_iff playTurnState).2.2.2.1 (Or.inr (by decide)),
   (ChanceOutcomes_fails_iff dealingState).2.2.2.2 (by decide)⟩

/-- Claim C10: constructing the game descriptor with deck selector `d`
succeeds, keeping `d`, if and only if `0 <= d < kNumDecks`, which, `kNumDecks`
being 1, is the case for `d = 0` only; for every other integer `d` the
construction fails on one of its two checks. -/
theorem ExplodingKittensGame_new_iff (d : Int) :
    ((∃ game, ExplodingKittensGame.new d = Except.ok game) ↔ (0 ≤ d ∧ d < kNumDecks))
    ∧ (ExplodingKittensGame.new d = Except.ok { deck_ := d } ↔ (0 ≤ d ∧ d < kNumDecks))
    ∧ kNumDecks = 1
    ∧ ((∃ game, ExplodingKittensGame.new d = Except.ok game) ↔ d = 0)
    ∧ (¬ (0 ≤ d ∧ d < kNumDecks) →
        ExplodingKittensGame.new d = Except.error "SPIEL_CHECK_GE(deck_, 0)"
        ∨ ExplodingKittensGame.new d = Except.error "SPIEL_CHECK_LT(deck_, kNumDecks)") := by
  have hdecks : kNumDecks = 1 := rfl
  by_cases h0 : 0 ≤ d
  · by_cases h1 : d < kNumDecks
    · have hnew : ExplodingKittensGame.new d = Except.ok { deck_ := d } := by
        simp [ExplodingKittensGame.new, h0, h1]
      have hd : d = 0 := by rw [hdecks] at h1; omega
      refine ⟨⟨fun _ => ⟨h0, h1⟩, fun _ => ⟨_, hnew⟩⟩, ⟨fun _ => ⟨h0, h1⟩, fun _ => hnew⟩,
        hdecks, ⟨fun _ => hd, fun _ => ⟨_, hnew⟩⟩, fun hn => absurd ⟨h0, h1⟩ hn⟩
    · have hnew : ExplodingKittensGame.new d
          = Except.error "SPIEL_CHECK_LT(deck_, kNumDecks)" := by
        simp [ExplodingKittensGame.new, h0, h1]
      have hd : d ≠ 0 := by rw [hdecks] at h1; omega
      refine ⟨⟨?_, fun h => absurd h.2 h1⟩, ⟨?_, fun h => absurd h.2 h1⟩, hdecks,
        ⟨?_, fun h => absurd h hd⟩, fun _ => Or.inr hnew⟩
      · rintro ⟨game, hg⟩; rw [hnew] at hg; cases hg
      · intro hg; rw [hnew] at hg; cases hg
      · rintro ⟨game, hg⟩; rw [hnew] at hg; cases hg
  · have hnew : ExplodingKittensGame.new d = Except.error "SPIEL_CHECK_GE(deck_, 0)" := by
      simp [ExplodingKittensGame.new, h0]
    have hd : d ≠ 0 := by omega
    refine ⟨⟨?_, fun h => absurd h.1 h0⟩, ⟨?_, fun h => absurd h.1 h0⟩, hdecks,
      ⟨?_, fun h => absurd h hd⟩, fun _ => Or.inl hnew⟩
    · rintro ⟨game, hg⟩; rw [hnew] at hg; cases hg
    · intro hg; rw [hnew] at hg; cases hg
    · rintro ⟨game, hg⟩; rw [hnew] at hg; cases hg

/-- Witness of `ExplodingKittensGame_new_iff`: selector 0 is accepted,
selector 1 fails the upper check and selector -1 the lower one. -/
theorem ExplodingKittensGame_new_iff_witness :
    (∃ game, ExplodingKittensGame.new 0 = Except.ok game)
    ∧ (ExplodingKittensGame.new 1 = Except.error "SPIEL_CHECK_GE(deck_, 0)"
        ∨ ExplodingKittensGame.new 1 = Except.error "SPIEL_CHECK_LT(deck_, kNumDecks)")
    ∧ (ExplodingKittensGame.new (-1) = Except.error "SPIEL_CHECK_GE(deck_, 0)"
        ∨ ExplodingKittensGame.new (-1) = Except.error "SPIEL_CHECK_LT(deck_, kNumDecks)") :=
  ⟨(ExplodingKittensGame_new_iff 0).2.2.2.1.mpr rfl,
   (ExplodingKittensGame_new_iff 1).2.2.2.2 (by decide),
   (ExplodingKittensGame_new_iff (-1)).2.2.2.2 (by decide)⟩

/-! ## Returns, continued -/

/-- Claim C11: in every non-terminal state `Returns` is the zero vector of
length exactly `kNumPlayers`, which is 2: the vector `[0, 0]`. -/
theorem Returns_non_terminal {kNumCards : Nat} (s : ExplodingKittensState kNumCards)
    (h : IsTerminal s = false) :
    Returns s = List.replicate kNumPlayers.toNat 0
    ∧ ((Returns s).length : Int) = kNumPlayers
    ∧ kNumPlayers = 2
    ∧ Returns s = [0, 0] := by
  have hr : Returns s = List.replicate kNumPlayers.toNat 0 := by
    simp [Returns, h]
  refine ⟨hr, ?_, rfl, ?_⟩
  · rw [hr]; rfl
  · rw [hr]; rfl

/-- Witness of `Returns_non_terminal`: the state in which player 1 is to play
a turn. -/
theorem Returns_non_terminal_witness :
    IsTerminal playTurnState = false
    ∧ Returns playTurnState = List.replicate kNumPlayers.toNat 0
    ∧ ((Returns playTurnState).length : Int) = kNumPlayers
    ∧ kNumPlayers = 2
    ∧ Returns playTurnState = [0, 0] :=
  ⟨by decide, Returns_non_terminal playTurnState (by decide)⟩

/-- Claim C12: in every terminal state `Returns` is a vector of length
exactly 2, never empty, whose components sum to `UtilitySum`, which is 0, and
lie each between `MinUtility`, which is -1, and `MaxUtility`, which is +1;
both components are 0, so they are 0 in a terminal state reached without an
explosion. -/
theorem Returns_terminal {kNumCards : Nat} (game : ExplodingKittensGame)
    (s : ExplodingKittensState kNumCards) (h : IsTerminal s = true) :
    (Returns s).length = 2
    ∧ Returns s ≠ []
    ∧ (Returns s).sum = UtilitySum game
    ∧ UtilitySum game = 0 ∧ MinUtility game = -1 ∧ MaxUtility game = 1
    ∧ (∀ r ∈ Returns s, MinUtility game ≤ r ∧ r ≤ MaxUtility game)
    ∧ Returns s = [0, 0] := by
  have hr : Returns s = [0, 0] := by
    simp [Returns, h]
    rfl
  rw [hr]
  refine ⟨rfl, by simp, by simp [UtilitySum], rfl, rfl, rfl, ?_, rfl⟩
  intro r hmem
  have h0 : r = 0 := by simpa using hmem
  subst h0
  simp [MinUtility, MaxUtility]

/-- Witness of `Returns_terminal`: the terminal state `explodedState`. -/
theorem Returns_terminal_witness :
    IsTerminal explodedState = true
    ∧ (Returns explodedState).length = 2
    ∧ Returns explodedState ≠ []
    ∧ (Returns explodedState).sum = UtilitySum { deck_ := 0 }
    ∧ UtilitySum { deck_ := 0 } = 0 ∧ MinUtility { deck_ := 0 } = -1
    ∧ MaxUtility { deck_ := 0 } = 1
    ∧ (∀ r ∈ Returns explodedState,
        MinUtility { deck_ := 0 } ≤ r ∧ r ≤ MaxUtility { deck_ := 0 })
    ∧ Returns explodedState = [0, 0] :=
  ⟨by decide, Returns_terminal { deck_ := 0 } explodedState (by decide)⟩

/-! ## Legal actions -/

/-- Claim C13, as the code has it: in the state `playTurnState`, which is not
terminal, is in phase PlayTurn with player 1 to act and has three cards in
the stock to draw from, `LegalActions` is the empty list; the player is
offered neither a card to play nor the draw that ends the turn. -/
theorem LegalActions_of_player_empty :
    IsTerminal playTurnState = false
    ∧ playTurnState.phase_ = Phase.kPlayTurn
    ∧ CurrentPlayer playTurnState = 1
    ∧ numPresent playTurnState = 3
    ∧ LegalActions playTurnState = [] := by
  decide

/-- Claim C14: in every state whose current actor is chance, `LegalActions`
returns the empty list. -/
theorem LegalActions_of_chance {kNumCards : Nat} (s : ExplodingKittensState kNumCards)
    (_hchance : CurrentPlayer s = kChancePlayerId) :
    LegalActions s = [] :=
  rfl

/-- Witness of `LegalActions_of_chance`: the dealing state. -/
theorem LegalActions_of_chance_witness :
    CurrentPlayer dealingState = kChancePlayerId ∧ LegalActions dealingState = [] :=
  ⟨by decide, LegalActions_of_chance dealingState (by decide)⟩

/-! ## Observations -/

/-- Claim C15, as the code has it: `ObservationTensor` leaves the vector it
is given as it is. For player 0 in the dealing state an empty vector comes
back empty and a vector of three entries comes back with three entries,
neither of length `kObservationTensorSize`, which is 10, and the same state
and player produce two different vectors. -/
theorem ObservationTensor_keeps_values :
    ObservationTensor dealingState 0 [] = Except.ok []
    ∧ ObservationTensor dealingState 0 [1, 2, 3] = Except.ok [1, 2, 3]
    ∧ (([] : List ℚ).length : Int) ≠ kObservationTensorSize
    ∧ ((([1, 2, 3] : List ℚ).length : Int)) ≠ kObservationTensorSize
    ∧ kObservationTensorSize = 10
    ∧ ObservationTensor dealingState 0 [] ≠ ObservationTensor dealingState 0 [1, 2, 3] := by
  refine ⟨rfl, rfl, by decide, by decide, rfl, ?_⟩
  intro h
  have h1 : ObservationTensor dealingState 0 [] = Except.ok [] := rfl
  have h2 : ObservationTensor dealingState 0 [1, 2, 3] = Except.ok [1, 2, 3] := rfl
  rw [h1, h2] at h
  injection h with h
  cases h

/-! ## Bounds on the chance outcomes -/

/-- The actions that the loop of `ChanceOutcomes` lists are the present card
identities, in the order of the range. -/
theorem presentCards_actions {kNumCards : Nat} (s : ExplodingKittensState kNumCards)
    (p : Option ℚ) :
    (((List.finRange kNumCards).filter (fun card => s.deck_ card)).map
        (fun card => (((card.val : Int) : Action), p))).map Prod.fst
      = ((List.finRange kNumCards).filter (fun card => s.deck_ card)).map
          (fun card => (card.val : Int)) := by
  rw [List.map_map]; rfl

/-- The card identities listed in the order of the range are strictly
increasing as actions. -/
theorem presentCards_increasing {kNumCards : Nat} (s : ExplodingKittensState kNumCards) :
    (((List.finRange kNumCards).filter (fun card => s.deck_ card)).map
      (fun card => (card.val : Int))).Pairwise (fun a b => a < b) := by
  apply List.Pairwise.map (fun card : Fin kNumCards => (card.val : Int)) _
    ((List.pairwise_lt_finRange kNumCards).filter _)
  intro a b hab
  show ((a.val : Int)) < (b.val : Int)
  exact_mod_cast hab

/-- Claim C17: in a state whose current actor is chance, where
`ChanceOutcomes` lists outcomes, every listed action lies in the range from 0
up to, not including, `MaxChanceOutcomes`, the listed actions are pairwise
distinct, and there are at most `MaxChanceOutcomes` outcomes;
`MaxChanceOutcomes` is `kNumCards`, the number of card identities. -/
theorem ChanceOutcomes_within_max {kNumCards : Nat} (game : ExplodingKittensGame)
    (s : ExplodingKittensState kNumCards)
    (hchance : CurrentPlayer s = kChancePlayerId) :
    ∃ outcomes : List (Action × Option ℚ),
      ChanceOutcomes s = Except.ok outcomes
      ∧ (∀ o ∈ outcomes, 0 ≤ o.1 ∧ o.1 < MaxChanceOutcomes kNumCards game)
      ∧ (outcomes.map Prod.fst).Nodup
      ∧ (outcomes.length : Int) ≤ MaxChanceOutcomes kNumCards game
      ∧ MaxChanceOutcomes kNumCards game = (kNumCards : Int) := by
  refine ⟨_, ChanceOutcomes_of_chance s hchance, ?_, ?_, ?_, rfl⟩
  · intro o ho
    obtain ⟨card, _, rfl⟩ := List.mem_map.mp ho
    have hlt : card.val < kNumCards := card.isLt
    constructor
    · show (0 : Int) ≤ (card.val : Int)
      omega
    · show (card.val : Int) < (kNumCards : Int)
      omega
  · rw [presentCards_actions]
    exact (presentCards_increasing s).imp (fun h => ne_of_lt h)
  · rw [List.length_map]
    have hle : ((List.finRange kNumCards).filter (fun card => s.deck_ card)).length
        ≤ (List.finRange kNumCards).length := List.length_filter_le _ _
    rw [List.length_finRange] at hle
    show ((((List.finRange kNumCards).filter (fun card => s.deck_ card)).length : Nat) : Int)
      ≤ (kNumCards : Int)
    omega

/-- Witness of `ChanceOutcomes_within_max`: the dealing state, with four
card identities. -/
theorem ChanceOutcomes_within_max_witness :
    CurrentPlayer dealingState = kChancePlayerId
    ∧ ∃ outcomes : List (Action × Option ℚ),
      ChanceOutcomes dealingState = Except.ok outcomes
      ∧ (∀ o ∈ outcomes, 0 ≤ o.1 ∧ o.1 < MaxChanceOutcomes 4 { deck_ := 0 })
      ∧ (outcomes.map Prod.fst).Nodup
      ∧ (outcomes.length : Int) ≤ MaxChanceOutcomes 4 { deck_ := 0 }
      ∧ MaxChanceOutcomes 4 { deck_ := 0 } = ((4 : Nat) : Int) :=
  ⟨by decide, ChanceOutcomes_within_max { deck_ := 0 } dealingState (by decide)⟩

/-! ## The stock when play begins -/

/-- Claim C18, as the code has it: `kMaxStockSize`, the size of the draw pile
when play begins, is `kNumCardsInDeck - kNumPlayers * kHandSize` and is
positive, but it is 14 and not the 12 cards that the deck composition leaves
after the deal: the composition has 22 cards and `kNumCardsInDeck` is 24, the
header adding `kNumSlap1xCards` twice and `kNumSlap2xCards` not at all. -/
theorem kMaxStockSize_value :
    kMaxStockSize = kNumCardsInDeck - kNumPlayers * kHandSize
    ∧ 0 < kMaxStockSize
    ∧ kMaxStockSize = 14
    ∧ kMaxStockSize ≠ 12
    ∧ (kNumSkipCards + kNumSlap1xCards + kNumSlap2xCards + kNumSeeTheFutureCards
        + kNumShuffleCards + kNumDrawFromTheBottomCards + kNumCatCards + kNumPlayers + 1)
        - kNumPlayers * kHandSize = 12
    ∧ kMaxStockSize ≠ (kNumSkipCards + kNumSlap1xCards + kNumSlap2xCards
        + kNumSeeTheFutureCards + kNumShuffleCards + kNumDrawFromTheBottomCards
        + kNumCatCards + kNumPlayers + 1) - kNumPlayers * kHandSize := by
  decide

/-! ## The range checks on the player -/

/-- Claim C19: in a state whose `num_players_` is the `kNumPlayers` of the
game, `ObservationTensor` and `ObservationString` accept the same players:
each of them fails if and only if `player < 0` or `player >= 2`, and each on
its own range check, the one against `kNumPlayers` and the other against
`num_players_`. -/
theorem Observation_checks_agree {kNumCards : Nat} (game : ExplodingKittensGame)
    (s : ExplodingKittensState kNumCards) (hplayers : s.num_players_ = kNumPlayers)
    (player : Int) (values : List ℚ) :
    ((∃ e, ObservationTensor s player values = Except.error e) ↔ (player < 0 ∨ player ≥ 2))
    ∧ ((∃ e, ObservationString game s player = Except.error e) ↔ (player < 0 ∨ player ≥ 2))
    ∧ (∀ e, ObservationTensor s player values = Except.error e →
        e = "SPIEL_CHECK_GE(player, 0)" ∨ e = "SPIEL_CHECK_LT(player, kNumPlayers)")
    ∧ (∀ e, ObservationString game s player = Except.error e →
        e = "SPIEL_CHECK_GE(player, 0)" ∨ e = "SPIEL_CHECK_LT(player, num_players_)")
    ∧ s.num_players_ = NumPlayers game := by
  have hk : kNumPlayers = 2 := rfl
  by_cases h0 : 0 ≤ player
  · by_cases h1 : player < 2
    · have ht : ∀ vs, ObservationTensor s player vs = Except.ok vs := by
        intro vs
        simp [ObservationTensor, h0, hk, h1]
      have hs : ObservationString game s player = Except.ok () := by
        simp [ObservationString, ht, h0, hplayers, hk, h1]
      refine ⟨⟨?_, fun h => by omega⟩, ⟨?_, fun h => by omega⟩, ?_, ?_, hplayers⟩
      · rintro ⟨e, he⟩; rw [ht] at he; cases he
      · rintro ⟨e, he⟩; rw [hs] at he; cases he
      · intro e he; rw [ht] at he; cases he
      · intro e he; rw [hs] at he; cases he
    · have ht : ObservationTensor s player values
          = Except.error "SPIEL_CHECK_LT(player, kNumPlayers)" := by
        simp [ObservationTensor, h0, hk, h1]
      have hs : ObservationString game s player
          = Except.error "SPIEL_CHECK_LT(player, num_players_)" := by
        simp [ObservationString, h0, hplayers, hk, h1]
      refine ⟨⟨fun _ => Or.inr (by omega), fun _ => ⟨_, ht⟩⟩,
        ⟨fun _ => Or.inr (by omega), fun _ => ⟨_, hs⟩⟩, ?_, ?_, hplayers⟩
      · intro e he; rw [ht] at he; cases he; exact Or.inr rfl
      · intro e he; rw [hs] at he; cases he; exact Or.inr rfl
  · have ht : ObservationTensor s player values = Except.error "SPIEL_CHECK_GE(player, 0)" := by
      simp [ObservationTensor, h0]
    have hs : ObservationString game s player = Except.error "SPIEL_CHECK_GE(player, 0)" := by
      simp [ObservationString, h0]
    refine ⟨⟨fun _ => Or.inl (by omega), fun _ => ⟨_, ht⟩⟩,
      ⟨fun _ => Or.inl (by omega), fun _ => ⟨_, hs⟩⟩, ?_, ?_, hplayers⟩
    · intro e he; rw [ht] at he; cases he; exact Or.inl rfl
    · intro e he; rw [hs] at he; cases he; exact Or.inl rfl

/-- Witness of `Observation_checks_agree`: the initial state, whose
`num_players_` is `kNumPlayers`, with player 2, whom both functions refuse. -/
theorem Observation_checks_agree_witness :
    (NewInitialState 4 { deck_ := 0 }).num_players_ = kNumPlayers
    ∧ (∃ e, ObservationTensor (NewInitialState 4 { deck_ := 0 }) 2 [] = Except.error e)
    ∧ (∃ e, ObservationString { deck_ := 0 } (NewInitialState 4 { deck_ := 0 }) 2
          = Except.error e) :=
  ⟨rfl,
   (Observation_checks_agree { deck_ := 0 } (NewInitialState 4 { deck_ := 0 }) rfl 2 []).1.mpr
      (Or.inr (by decide)),
   (Observation_checks_agree { deck_ := 0 } (NewInitialState 4 { deck_ := 0 }) rfl 2 []).2.1.mpr
      (Or.inr (by decide))⟩

/-! ## The deck selector of the initial state -/

/-- Claim C20: for every game descriptor that the constructor has accepted,
the deck selector that `NewInitialState` hands to the initial state, the
literal 0, is the selector of the descriptor, the only accepted selector
being 0; the initial state is the one constructed for the selector of the
descriptor. -/
theorem NewInitialState_deck (kNumCards : Nat) (d : Int) (game : ExplodingKittensGame)
    (hgame : ExplodingKittensGame.new d = Except.ok game) :
    (NewInitialState kNumCards game).deck = game.deck_
    ∧ (NewInitialState kNumCards game).deck = 0
    ∧ game.deck_ = 0
    ∧ NewInitialState kNumCards game = initialStateOfDescriptor kNumCards game := by
  have hd : game.deck_ = 0 := by
    unfold ExplodingKittensGame.new at hgame
    split at hgame
    · cases hgame
    · split at hgame
      · cases hgame
      · rename_i h0 h1
        cases hgame
        have hk : kNumDecks = 1 := rfl
        rw [hk] at h1
        show d = 0
        omega
  refine ⟨?_, rfl, hd, ?_⟩
  · rw [hd]; rfl
  · unfold initialStateOfDescriptor NewInitialState
    rw [hd]

/-- Witness of `NewInitialState_deck`: the descriptor constructed with
selector 0. -/
theorem NewInitialState_deck_witness :
    ExplodingKittensGame.new 0 = Except.ok { deck_ := 0 }
    ∧ (NewInitialState 4 { deck_ := 0 }).deck = ({ deck_ := 0 } : ExplodingKittensGame).deck_
    ∧ (NewInitialState 4 { deck_ := 0 }).deck = 0
    ∧ ({ deck_ := 0 } : ExplodingKittensGame).deck_ = 0
    ∧ NewInitialState 4 { deck_ := 0 } = initialStateOfDescriptor 4 { deck_ := 0 } :=
  ⟨rfl, NewInitialState_deck 4 0 { deck_ := 0 } rfl⟩

/-! ## The deal -/

theorem DoApplyAction_of_deal {kNumCards : Nat} {β : Type}
    (H : Handlers (ExplodingKittensState kNumCards) β)
    (s : ExplodingKittensState kNumCards) (action : Action)
    (h : s.phase_ = Phase.kDeal) :
    DoApplyAction H s action = Except.ok (H.ApplyDealAction s action) := by
  simp [DoApplyAction, h]

theorem handFull_iff {kNumCards : Nat} (hand : List (Fin kNumCards)) :
    handFull hand = true ↔ 5 ≤ hand.length := by
  unfold handFull kHandSize
  rw [decide_eq_true_iff]
  omega

/-- The player being dealt to has room in the hand: while fewer than ten
cards are dealt and no hand holds more than five, the card goes to a hand of
fewer than five. -/
theorem giveCard_dealTarget_length {kNumCards : Nat} (pick : Hands kNumCards → Bool)
    (hands : Hands kNumCards) (card : Fin kNumCards)
    (h1 : hands.1.length ≤ 5) (h2 : hands.2.length ≤ 5)
    (hsum : hands.1.length + hands.2.length < 10) :
    ((giveCard hands (dealTarget pick hands) card).1.length = hands.1.length + 1
      ∧ (giveCard hands (dealTarget pick hands) card).2.length = hands.2.length
      ∧ hands.1.length < 5)
    ∨ ((giveCard hands (dealTarget pick hands) card).1.length = hands.1.length
      ∧ (giveCard hands (dealTarget pick hands) card).2.length = hands.2.length + 1
      ∧ hands.2.length < 5) := by
  unfold dealTarget
  by_cases hf1 : handFull hands.1 = true
  · have hlen := (handFull_iff hands.1).mp hf1
    right
    simp only [hf1, if_true, giveCard]
    refine ⟨by simp, by simp, by omega⟩
  · have hlen1 : ¬ 5 ≤ hands.1.length := fun h => hf1 ((handFull_iff hands.1).mpr h)
    by_cases hf2 : handFull hands.2 = true
    · left
      simp only [hf1, hf2, if_true, giveCard]
      refine ⟨by simp, by simp, by omega⟩
    · have hlen2 : ¬ 5 ≤ hands.2.length := fun h => hf2 ((handFull_iff hands.2).mpr h)
      by_cases hp : pick hands = true
      · right
        simp only [hf1, hf2, hp, if_true, giveCard]
        refine ⟨by simp, by simp, by omega⟩
      · left
        simp only [hf1, hf2, hp, giveCard]
        refine ⟨by simp, by simp, by omega⟩

/-- One card dealt: a card of the stock, dealt in phase Deal while fewer than
ten cards are out, leaves the stock for a hand; the phase remains Deal until
the tenth card, which makes it PlayTurn with player 0 to act. -/
theorem ApplyDealAction_step {kNumCards : Nat} (pick : Hands kNumCards → Bool)
    (s : ExplodingKittensState kNumCards) (action : Int) (hands : Hands kNumCards)
    (hphase : s.phase_ = Phase.kDeal)
    (hrange : 0 ≤ action ∧ action < (kNumCards : Int))
    (hpresent : ∀ card : Fin kNumCards, (card.val : Int) = action → s.deck_ card = true)
    (h1 : hands.1.length ≤ 5) (h2 : hands.2.length ≤ 5)
    (hsum : hands.1.length + hands.2.length < 10) :
    ∃ t dealt, ApplyDealAction pick s action hands = Except.ok (t, dealt)
      ∧ dealt.1.length + dealt.2.length = hands.1.length + hands.2.length + 1
      ∧ dealt.1.length ≤ 5 ∧ dealt.2.length ≤ 5
      ∧ (∀ card : Fin kNumCards, (card.val : Int) ≠ action → t.deck_ card = s.deck_ card)
      ∧ (hands.1.length + hands.2.length + 1 < 10 → t.phase_ = Phase.kDeal)
      ∧ (hands.1.length + hands.2.length + 1 = 10 →
          t.phase_ = Phase.kPlayTurn ∧ t.cur_player_ = 0) := by
  have hcard : s.deck_ ⟨action.toNat, (Int.toNat_lt hrange.1).mpr hrange.2⟩ = true :=
    hpresent _ (Int.toNat_of_nonneg hrange.1)
  have hstock : ∀ card : Fin kNumCards, (card.val : Int) ≠ action →
      (if card = (⟨action.toNat, (Int.toNat_lt hrange.1).mpr hrange.2⟩ : Fin kNumCards)
        then false else s.deck_ card) = s.deck_ card := by
    intro card hne
    rw [if_neg]
    intro heq
    apply hne
    rw [heq]
    exact Int.toNat_of_nonneg hrange.1
  have hlen := giveCard_dealTarget_length pick hands
    ⟨action.toNat, (Int.toNat_lt hrange.1).mpr hrange.2⟩ h1 h2 hsum
  unfold ApplyDealAction
  rw [dif_pos hrange]
  simp only [hcard, if_true]
  by_cases hfull :
      (handFull (giveCard hands (dealTarget pick hands)
          ⟨action.toNat, (Int.toNat_lt hrange.1).mpr hrange.2⟩).1
        && handFull (giveCard hands (dealTarget pick hands)
          ⟨action.toNat, (Int.toNat_lt hrange.1).mpr hrange.2⟩).2) = true
  · rw [if_pos hfull]
    rw [Bool.and_eq_true, handFull_iff, handFull_iff] at hfull
    refine ⟨_, _, rfl, by omega, by omega, by omega, hstock, fun h => by omega,
      fun _ => ⟨rfl, rfl⟩⟩
  · rw [if_neg hfull]
    rw [Bool.and_eq_true, handFull_iff, handFull_iff] at hfull
    refine ⟨_, _, rfl, by omega, by omega, by omega, hstock, fun _ => hphase,
      fun h => absurd ⟨by omega, by omega⟩ hfull⟩

/-- A run of deal actions: distinct cards of the stock, dealt from a state
in phase Deal for as long as at most ten cards are out, are all dealt; the
phase is Deal while fewer than ten cards are out and PlayTurn, with player 0
to act, when ten are. -/
theorem applyActions_deal {kNumCards : Nat} (pick : Hands kNumCards → Bool)
    (other : Handlers (ExplodingKittensState kNumCards) (HandsHandler kNumCards))
    (actions : List Int) :
    ∀ (s : ExplodingKittensState kNumCards) (hands : Hands kNumCards),
      s.phase_ = Phase.kDeal →
      (∀ a ∈ actions, 0 ≤ a ∧ a < (kNumCards : Int)) →
      (∀ a ∈ actions, ∀ card : Fin kNumCards, (card.val : Int) = a → s.deck_ card = true) →
      actions.Nodup →
      hands.1.length ≤ 5 → hands.2.length ≤ 5 →
      hands.1.length + hands.2.length < 10 →
      hands.1.length + hands.2.length + actions.length ≤ 10 →
      ∃ t dealt, applyActions (dealHandlers pick other) actions (s, hands) = Except.ok (t, dealt)
        ∧ dealt.1.length + dealt.2.length = hands.1.length + hands.2.length + actions.length
        ∧ dealt.1.length ≤ 5 ∧ dealt.2.length ≤ 5
        ∧ (hands.1.length + hands.2.length + actions.length < 10 → t.phase_ = Phase.kDeal)
        ∧ (hands.1.length + hands.2.length + actions.length = 10 →
            t.phase_ = Phase.kPlayTurn ∧ t.cur_player_ = 0) := by
  induction actions with
  | nil =>
    intro s hands hphase _ _ _ h1 h2 hsum _
    exact ⟨s, hands, rfl, rfl, h1, h2, fun _ => hphase, fun h => by
      simp only [List.length_nil] at h; omega⟩
  | cons action rest ih =>
    intro s hands hphase hrange hpresent hnodup h1 h2 hsum hroom
    obtain ⟨hnotin, hnodup_rest⟩ := List.nodup_cons.mp hnodup
    obtain ⟨t, dealt, hstep, hlen, hd1, hd2, hstock, hdeal, hplay⟩ :=
      ApplyDealAction_step pick s action hands hphase
        (hrange action (List.mem_cons_self _ _))
        (hpresent action (List.mem_cons_self _ _)) h1 h2 hsum
    have hrun : applyActions (dealHandlers pick other) (action :: rest) (s, hands)
        = applyActions (dealHandlers pick other) rest (t, dealt) := by
      show (match DoApplyAction (dealHandlers pick other) s action with
        | Except.error e => Except.error e
        | Except.ok handler =>
          match handler hands with
          | Except.error e => Except.error e
          | Except.ok next => applyActions (dealHandlers pick other) rest next) = _
      rw [DoApplyAction_of_deal _ s action hphase]
      show (match ApplyDealAction pick s action hands with
          | Except.error e => Except.error e
          | Except.ok next => applyActions (dealHandlers pick other) rest next) = _
      rw [hstep]
    rw [hrun]
    simp only [List.length_cons] at hroom ⊢
    cases rest with
    | nil =>
      refine ⟨t, dealt, rfl, by simpa using hlen, hd1, hd2, ?_, ?_⟩
      · intro h; exact hdeal (by simpa using h)
      · intro h; exact hplay (by simpa using h)
    | cons next rest2 =>
      have hless : hands.1.length + hands.2.length + 1 < 10 := by
        simp only [List.length_cons] at hroom; omega
      obtain ⟨u, final, hfinal, hflen, hf1, hf2, hfdeal, hfplay⟩ :=
        ih t dealt (hdeal hless)
          (fun a ha => hrange a (List.mem_cons_of_mem _ ha))
          (fun a ha card hc => by
            rw [hstock card (by
              intro heq
              apply hnotin
              rw [← heq, hc]
              exact ha)]
            exact hpresent a (List.mem_cons_of_mem _ ha) card hc)
          hnodup_rest hd1 hd2 (by omega) (by omega)
      refine ⟨u, final, hfinal, by omega, hf1, hf2, ?_, ?_⟩
      · intro h; exact hfdeal (by omega)
      · intro h; exact hfplay (by omega)

/-- The deal of the hands agrees with row Deal of the phase table: in phase
Deal with chance to act, the state that `ApplyDealAction` leaves behind is one
that `specApplyDealAction` allows. -/
theorem ApplyDealAction_within_spec {kNumCards : Nat} (pick : Hands kNumCards → Bool)
    (s t : ExplodingKittensState kNumCards) (action : Action)
    (hands dealt : Hands kNumCards)
    (hphase : s.phase_ = Phase.kDeal) (hchance : s.cur_player_ = kChancePlayerId)
    (h : ApplyDealAction pick s action hands = Except.ok (t, dealt)) :
    specApplyDealAction s action t := by
  unfold ApplyDealAction at h
  split at h
  · simp only [] at h
    split at h
    · split at h
      · cases h
        exact Or.inr (Or.inl ⟨rfl, rfl⟩)
      · cases h
        exact Or.inl ⟨hphase, hchance⟩
    · cases h
  · cases h

/-- Claim C16: from the initial state of the game, with empty hands, any ten
valid Deal-phase chance actions, distinct card identities of the full stock,
are applied without failure and leave the phase PlayTurn, `kHandSize` cards,
which is 5, in each hand, and `CurrentPlayer` 0; any fewer than ten of them
are applied without failure and leave the phase Deal. This holds for every
order of dealing and whatever the five other handlers are. -/
theorem deal_ten_cards {kNumCards : Nat} (game : ExplodingKittensGame)
    (pick : Hands kNumCards → Bool)
    (other : Handlers (ExplodingKittensState kNumCards) (HandsHandler kNumCards))
    (actions : List Int)
    (hrange : ∀ a ∈ actions, 0 ≤ a ∧ a < (kNumCards : Int))
    (hnodup : actions.Nodup) :
    (actions.length = 10 →
      ∃ t dealt,
        applyActions (dealHandlers pick other) actions
            (NewInitialState kNumCards game, ([], [])) = Except.ok (t, dealt)
        ∧ t.phase_ = Phase.kPlayTurn
        ∧ (dealt.1.length : Int) = kHandSize ∧ (dealt.2.length : Int) = kHandSize
        ∧ kHandSize = 5
        ∧ CurrentPlayer t = 0)
    ∧ (actions.length < 10 →
      ∃ t dealt,
        applyActions (dealHandlers pick other) actions
            (NewInitialState kNumCards game, ([], [])) = Except.ok (t, dealt)
        ∧ t.phase_ = Phase.kDeal) := by
  have hrun : actions.length ≤ 10 →
      ∃ t dealt, applyActions (dealHandlers pick other) actions
            (NewInitialState kNumCards game, ([], [])) = Except.ok (t, dealt)
        ∧ dealt.1.length + dealt.2.length = actions.length
        ∧ dealt.1.length ≤ 5 ∧ dealt.2.length ≤ 5
        ∧ (actions.length < 10 → t.phase_ = Phase.kDeal)
        ∧ (actions.length = 10 → t.phase_ = Phase.kPlayTurn ∧ t.cur_player_ = 0) := by
    intro hlen
    have h := applyActions_deal pick other actions (NewInitialState kNumCards game) ([], [])
      rfl hrange (fun _ _ _ _ => rfl) hnodup (by simp) (by simp) (by simp)
      (by simpa using hlen)
    simpa using h
  constructor
  · intro hlen
    obtain ⟨t, dealt, hok, hsum, h1, h2, _, hplay⟩ := hrun (by omega)
    obtain ⟨hp, hc⟩ := hplay hlen
    refine ⟨t, dealt, hok, hp, ?_, ?_, rfl, ?_⟩
    · unfold kHandSize; omega
    · unfold kHandSize; omega
    · rw [CurrentPlayer_of_not_terminal t (by simp [hp])]
      exact hc
  · intro hlen
    obtain ⟨t, dealt, hok, _, _, _, hdeal, _⟩ := hrun (by omega)
    exact ⟨t, dealt, hok, hdeal hlen⟩

/-- Witness of `deal_ten_cards`: ten cards of a stock of 24, dealt to the two
players in turn. -/
theorem deal_ten_cards_witness :
    (∀ a ∈ ([3, 17, 0, 21, 8, 12, 5, 23, 9, 14] : List Int), 0 ≤ a ∧ a < ((24 : Nat) : Int))
    ∧ ([3, 17, 0, 21, 8, 12, 5, 23, 9, 14] : List Int).Nodup
    ∧ ∃ t dealt,
        applyActions (dealHandlers alternately (unmodelledHandlers 24))
            [3, 17, 0, 21, 8, 12, 5, 23, 9, 14]
            (NewInitialState 24 { deck_ := 0 }, ([], [])) = Except.ok (t, dealt)
        ∧ t.phase_ = Phase.kPlayTurn
        ∧ (dealt.1.length : Int) = kHandSize ∧ (dealt.2.length : Int) = kHandSize
        ∧ kHandSize = 5
        ∧ CurrentPlayer t = 0 :=
  ⟨by decide, by decide,
    (deal_ten_cards { deck_ := 0 } alternately (unmodelledHandlers 24)
      [3, 17, 0, 21, 8, 12, 5, 23, 9, 14] (by decide) (by decide)).1 rfl⟩

end exploding_kittens
end open_spiel
